import Mathlib

/-!
# Verification of the Study-Room Board back-end (`src/server.js`)

Shallow embedding conventions:

* Instants are natural numbers counting **minutes** since midnight (in the
  configured timezone `TZ`) of an arbitrary epoch day.  A calendar date is a
  day index `d : Nat`; the instant of minute-of-day `m` on day `d` is
  `d * 1440 + m`.  DST shifts are not modelled (all date arithmetic in the
  source goes through dayjs with a fixed zone; the claims under study do not
  depend on DST).
* `dayjs` parsing with an explicit format list (`parseTime` in the source) is
  embedded as a character-list parser trying the same patterns in the same
  order; an invalid parse is `none` (dayjs "Invalid Date").
* HTTP responses and JSON payloads are embedded as inductive types carrying
  exactly the fields the source reads; `fetch` rejections are a constructor.
* A dayjs `format('YYYY-MM-DD HH:mm')` occupancy key is embedded as the pair
  `(day index, minute of day)`; the string rendering is injective on those
  two components, so string equality of keys coincides with pair equality.
* Thrown JS exceptions are `Except.error`.
-/

/-! ## Time Parser (`parseTime` in `server.js`)

The source tries the dayjs patterns
`'h:mma'`, `'h:mm a'`, `'hh:mma'`, `'H:mm'`, `'HH:mm'`, `'h a'`, `'ha'`
(each prefixed by `YYYY-MM-DD`, which always parses and only anchors the
date) and returns the first valid instant.  Trailing input is ignored, as in
non-strict dayjs parsing. -/

def digitVal (c : Char) : Nat := c.toNat - '0'.toNat

/-- dayjs token `h` / `H`: one or two digits, greedy. -/
def take2Digits : List Char → Option (Nat × List Char)
  | c1 :: c2 :: rest =>
    if c1.isDigit then
      if c2.isDigit then some (digitVal c1 * 10 + digitVal c2, rest)
      else some (digitVal c1, c2 :: rest)
    else none
  | [c1] => if c1.isDigit then some (digitVal c1, []) else none
  | [] => none

/-- dayjs token `hh` / `HH` / `mm`: exactly two digits. -/
def takeExactly2 : List Char → Option (Nat × List Char)
  | c1 :: c2 :: rest =>
    if c1.isDigit && c2.isDigit then some (digitVal c1 * 10 + digitVal c2, rest)
    else none
  | _ => none

def expectChar (c : Char) : List Char → Option (List Char)
  | x :: rest => if x == c then some rest else none
  | [] => none

def dropDot : List Char → List Char
  | '.' :: rest => rest
  | l => l

def dropLetterM : List Char → List Char
  | c :: rest => if c.toLower == 'm' then rest else c :: rest
  | [] => []

/-- dayjs meridiem token `a`: regex `[ap]\.?m?\.?` (case-insensitive).
Returns `true` for PM. -/
def takeMeridiem : List Char → Option (Bool × List Char)
  | c :: rest =>
    let cl := c.toLower
    if cl == 'a' || cl == 'p' then
      some (cl == 'p', dropDot (dropLetterM (dropDot rest)))
    else none
  | [] => none

/-- dayjs meridiem post-processing: PM adds 12 to hours below 12; 12 AM is 0. -/
def applyMeridiem (h : Nat) (pm : Bool) : Nat :=
  if pm then (if h < 12 then h + 12 else h) else (if h == 12 then 0 else h)

/-- Pattern `h:mma` (also used for `hh:mma` by swapping the hour scanner). -/
def patHColonMmA (hourTok : List Char → Option (Nat × List Char))
    (spaceBeforeMeridiem : Bool) (cs : List Char) : Option Nat := do
  let (h, cs) ← hourTok cs
  let cs ← expectChar ':' cs
  let (m, cs) ← takeExactly2 cs
  let cs ← if spaceBeforeMeridiem then expectChar ' ' cs else pure cs
  let (pm, _) ← takeMeridiem cs
  pure (applyMeridiem h pm * 60 + m)

/-- Pattern `H:mm` / `HH:mm` (24-hour, no meridiem). -/
def patHColonMm (hourTok : List Char → Option (Nat × List Char))
    (cs : List Char) : Option Nat := do
  let (h, cs) ← hourTok cs
  let cs ← expectChar ':' cs
  let (m, _) ← takeExactly2 cs
  pure (h * 60 + m)

/-- Patterns `h a` and `ha` (bare hour plus meridiem). -/
def patHourMeridiem (spaceBeforeMeridiem : Bool) (cs : List Char) : Option Nat := do
  let (h, cs) ← take2Digits cs
  let cs ← if spaceBeforeMeridiem then expectChar ' ' cs else pure cs
  let (pm, _) ← takeMeridiem cs
  pure (applyMeridiem h pm * 60)

/-- Minute-of-day denoted by a time string, trying the source's dayjs
patterns in order: `h:mma`, `h:mm a`, `hh:mma`, `H:mm`, `HH:mm`, `h a`, `ha`. -/
def parseMinutes (s : String) : Option Nat :=
  let cs := s.data
  (patHColonMmA take2Digits false cs).orElse fun _ =>
  (patHColonMmA take2Digits true cs).orElse fun _ =>
  (patHColonMmA takeExactly2 false cs).orElse fun _ =>
  (patHColonMm take2Digits cs).orElse fun _ =>
  (patHColonMm takeExactly2 cs).orElse fun _ =>
  (patHourMeridiem true cs).orElse fun _ =>
  (patHourMeridiem false cs)

/-- `parseTime(dateISO, timeStr)` from the source: a timezone-anchored
instant on day `d` for the parsed minute-of-day, or `none`. -/
def parseTime (d : Nat) (s : String) : Option Nat :=
  (parseMinutes s).map (fun m => d * 1440 + m)

/-! ## Slot Grid Builder (`buildSlots` in `server.js`) -/

/-- `SLOT_MINUTES` in the source. -/
def SLOT_MINUTES : Nat := 30

/-- `first.minute(startMin < 30 ? 0 : 30).second(0)`: round the opening
instant down to a `:00` or `:30` boundary. -/
def alignSlot (o : Nat) : Nat := o / 60 * 60 + (if o % 60 < 30 then 0 else 30)

/-- The `while (true)` loop of `buildSlots`: emit a slot start and advance by
30 minutes, stopping as soon as the slot's end would pass `close`. -/
def slotLoop (t close : Nat) : List Nat :=
  if t + 30 ≤ close then t :: slotLoop (t + 30) close else []
termination_by close - t
decreasing_by omega

/-- `buildSlots(dateISO, openStr, closeStr)`: parse both boundaries, roll a
non-increasing close over to the next calendar day, align the opening, then
emit 30-minute slot starts.  A parse failure on either boundary throws. -/
def buildSlots (d : Nat) (openStr closeStr : String) : Except String (List Nat) :=
  match parseTime d openStr, parseTime d closeStr with
  | some first, some close =>
    let close := if first < close then close else close + 1440
    Except.ok (slotLoop (alignSlot first) close)
  | _, _ =>
    Except.error ("Could not parse opening hours: " ++ openStr ++ " – " ++ closeStr)

/-! ## Booking status filter (`isActiveStatus` in `server.js`)

`String(status || '').trim().toLowerCase()` membership in the active set. -/

def trimWS (l : List Char) : List Char :=
  ((l.dropWhile Char.isWhitespace).reverse.dropWhile Char.isWhitespace).reverse

/-- JS `String(status || '').trim().toLowerCase()` (an absent status behaves
as the empty string). -/
def normStatus (st : Option String) : String :=
  String.mk ((trimWS (st.getD "").data).map Char.toLower)

/-- `isActiveStatus(status)` from the source. -/
def isActiveStatus (st : Option String) : Bool :=
  let s := normStatus st
  s == "confirmed" || s == "checked in" || s == "checked-in" || s == "active"

/-! ## Hours Resolver (`getTodayHours` in `server.js`) -/

/-- The `hours` field of a date entry: absent, present but not an array, or
an array of `{from, to}` sub-intervals. -/
inductive HoursField where
  | absent : HoursField
  | notArray : HoursField
  | arr : List (String × String) → HoursField
deriving DecidableEq

/-- The date entry `json?.[0]?.dates?.[isoDate]`. -/
structure DayData where
  status : String
  hours : HoursField
deriving DecidableEq

/-- Body of the hours HTTP response: unparseable text (with the message of
the `JSON.parse` exception) or parsed JSON, reduced to the single date-entry
lookup the source performs. -/
inductive HoursBody where
  | notJson : String → HoursBody
  | json : Option DayData → HoursBody
deriving DecidableEq

/-- Outcome of `fetch` on the hours endpoint: a rejected promise (network
error) or an HTTP response with a status code and a body. -/
inductive HoursResponse where
  | netErr : String → HoursResponse
  | resp : Int → HoursBody → HoursResponse
deriving DecidableEq

/-- `/open/i.test(status)`: case-insensitive substring search for "open". -/
def isPrefixL : List Char → List Char → Bool
  | [], _ => true
  | _ :: _, [] => false
  | a :: as, b :: bs => a == b && isPrefixL as bs

def hasSubstr (needle : List Char) : List Char → Bool
  | [] => needle.isEmpty
  | c :: rest => isPrefixL needle (c :: rest) || hasSubstr needle rest

def regexTestOpen (s : String) : Bool :=
  hasSubstr "open".data (s.data.map Char.toLower)

/-- `!Array.isArray(dayData.hours) || dayData.hours.length === 0`. -/
def hoursEmptyish : HoursField → Bool
  | .arr l => l.isEmpty
  | _ => true

/-- `dayjs(h.from, 'h:mma')` in the extremal-boundary reduce: only the first
pattern is tried there. -/
def parseHmma (s : String) : Option Nat := patHColonMmA take2Digits false s.data

/-- dayjs `isBefore` (`false` when either side is invalid). -/
def isBeforeO : Option Nat → Option Nat → Bool
  | some a, some b => decide (a < b)
  | _, _ => false

/-- dayjs `isAfter` (`false` when either side is invalid). -/
def isAfterO : Option Nat → Option Nat → Bool
  | some a, some b => decide (b < a)
  | _, _ => false

/-- The `try` block of `getTodayHours`: every `throw` is an `Except.error`. -/
def getTodayHoursE (r : HoursResponse) : Except String (String × String) :=
  match r with
  | .netErr e => Except.error e
  | .resp status body =>
    if 200 ≤ status ∧ status < 300 then
      match body with
      | .notJson e => Except.error e
      | .json none => Except.error "No date entry in hours payload"
      | .json (some dayData) =>
        if regexTestOpen dayData.status && hoursEmptyish dayData.hours then
          Except.ok ("12:00am", "12:00am")
        else
          match dayData.hours with
          | .arr (h0 :: rest) =>
            if regexTestOpen dayData.status then
              Except.ok
                ((h0 :: rest).foldl
                  (fun earliest h =>
                    if isBeforeO (parseHmma h.1) (parseHmma earliest) then h.1
                    else earliest) h0.1,
                 (h0 :: rest).foldl
                  (fun latest h =>
                    if isAfterO (parseHmma h.2) (parseHmma latest) then h.2
                    else latest) h0.2)
            else Except.error ("Closed or malformed hours: " ++ dayData.status)
          | _ => Except.error ("Closed or malformed hours: " ++ dayData.status)
    else Except.error ("Hours HTTP " ++ toString status)

/-- `String(n).padStart(2, '0')`. -/
def pad2 (n : Nat) : String := if n < 10 then "0" ++ toString n else toString n

/-- `getTodayHours(bearer, isoDate)`: the `try` body with its `catch`
substituting the configured fallback window.  Total: it never throws. -/
def getTodayHours (r : HoursResponse) (fbOpen fbClose : Nat) : String × String :=
  match getTodayHoursE r with
  | Except.ok w => w
  | Except.error _ => (pad2 fbOpen ++ ":00", pad2 fbClose ++ ":00")

/-- The hours-request outcomes on which the `try` block of `getTodayHours`
throws (and the `catch` therefore substitutes the fallback window): network
error, non-success status, unparseable JSON, missing date entry, or a status
that does not match `/open/i`. -/
def isHoursFailure : HoursResponse → Bool
  | .netErr _ => true
  | .resp status body =>
    if 200 ≤ status ∧ status < 300 then
      match body with
      | .notJson _ => true
      | .json none => true
      | .json (some dayData) => ! regexTestOpen dayData.status
    else true

/-! ## Access Token Cache (`getAccessToken` in `server.js`) -/

/-- The module-level `tokenCache = { token, expires }` (milliseconds since
the JS epoch for `expires`). -/
structure TokenCache where
  token : Option String
  expires : Int
deriving DecidableEq

/-- Body of a token-endpoint response: unparseable text (`JSON.parse`
throws) or JSON with optional `access_token` and `expires_in` fields. -/
inductive OAuthBody where
  | notJson : String → OAuthBody
  | json : Option String → Option Int → OAuthBody
deriving DecidableEq

/-- Outcome of `fetch` on one candidate token URL. -/
inductive OAuthResponse where
  | netErr : String → OAuthResponse
  | resp : Int → OAuthBody → OAuthResponse
deriving DecidableEq

/-- `Date.now() + (json.expires_in ? (json.expires_in - 60) * 1000
: 59 * 60 * 1000)` (a `0` lifetime is falsy in JS). -/
def expiresOf (now : Int) (expiresIn : Option Int) : Int :=
  match expiresIn with
  | some n => if n = 0 then now + 59 * 60 * 1000 else now + (n - 60) * 1000
  | none => now + 59 * 60 * 1000

/-- The `for (const url of tokenUrls)` loop: one list element per candidate
endpoint, threading `lastErr`; returns the new cache on first success and
counts the fetches performed. -/
def refreshLoop (now : Int) : List OAuthResponse → Option String →
    Except String TokenCache × Nat
  | [], lastErr => (Except.error (lastErr.getD "OAuth failed"), 0)
  | .netErr e :: rest, _ =>
    let (res, n) := refreshLoop now rest (some e)
    (res, n + 1)
  | .resp status body :: rest, _ =>
    if 200 ≤ status ∧ status < 300 then
      match body with
      | .notJson e =>
        let (res, n) := refreshLoop now rest (some e)
        (res, n + 1)
      | .json tok exp => (Except.ok ⟨tok, expiresOf now exp⟩, 1)
    else
      let (res, n) := refreshLoop now rest (some ("OAuth failed (" ++ toString status ++ ")"))
      (res, n + 1)

/-- The error recorded by one failing loop iteration of `getAccessToken`:
the rejection message for a network error, the `OAuth failed (status)` error
for a non-success status, the `JSON.parse` exception for a non-JSON body;
`none` when the iteration succeeds (a parseable body on a success status). -/
def oauthFailMsg : OAuthResponse → Option String
  | .netErr e => some e
  | .resp status body =>
    if 200 ≤ status ∧ status < 300 then
      match body with
      | .notJson e => some e
      | .json _ _ => none
    else some ("OAuth failed (" ++ toString status ++ ")")

/-- The value of `lastErr` after the whole endpoint loop has failed. -/
def lastErrOf (resps : List OAuthResponse) : Option String :=
  resps.foldl (fun a r => (oauthFailMsg r).orElse (fun _ => a)) none

/-- JS truthiness of `tokenCache.token` (`null`/`undefined`/`""` are falsy). -/
def tokenTruthy (c : TokenCache) : Bool :=
  match c.token with
  | some t => decide (t ≠ "")
  | none => false

/-- `getAccessToken()`: cached-token fast path, else the refresh loop.
Returns the result (`.error` = thrown), the cache afterwards, and the number
of network requests performed. -/
def getAccessToken (cache : TokenCache) (now : Int) (resps : List OAuthResponse) :
    Except String (Option String) × TokenCache × Nat :=
  if tokenTruthy cache = true ∧ now < cache.expires then
    (Except.ok cache.token, cache, 0)
  else
    match refreshLoop now resps none with
    | (Except.ok c, n) => (Except.ok c.token, c, n)
    | (Except.error e, n) => (Except.error e, cache, n)

/-! ## Booking Aggregator and Availability Assembler (`/api/today`) -/

/-- A booking as the route reads it: its `status` and the parsed
`dayjs(b.fromDate || b.from).tz(TZ)` / `dayjs(b.toDate || b.to).tz(TZ)`
instants (`none` = invalid, the booking is skipped). -/
structure Booking where
  status : Option String
  start : Option Nat
  finish : Option Nat
deriving DecidableEq

/-- The occupancy key `u.format('YYYY-MM-DD HH:mm')`, embedded as the pair
(calendar-day index, minute of day); the string format is injective on
exactly these two components. -/
def slotKey (u : Nat) : Nat × Nat := (u / 1440, u % 1440)

/-- The `for (let u = start; u.isBefore(end); u = u.add(30, 'minute'))`
loop: the instants stepped from the raw booking start. -/
def keysLoop (u e : Nat) : List Nat :=
  if u < e then u :: keysLoop (u + 30) e else []
termination_by e - u
decreasing_by omega

/-- Occupancy keys contributed by a single booking: nothing unless its
status is active and both instants are valid. -/
def bookingKeys (b : Booking) : List (Nat × Nat) :=
  if isActiveStatus b.status then
    match b.start, b.finish with
    | some s, some e => (keysLoop s e).map slotKey
    | _, _ => []
  else []

/-- The `taken` set over all fetched bookings (membership model of the JS
`Set`). -/
def takenSet (bs : List Booking) : List (Nat × Nat) := bs.flatMap bookingKeys

/-- `allSlots.filter(t => t.add(30,'minute').isAfter(now))` with the
full-grid fallback when nothing remains. -/
def displaySlots (allSlots : List Nat) (now : Nat) : List Nat :=
  let slots := allSlots.filter (fun t => decide (now < t + 30))
  if slots.length = 0 then allSlots else slots

/-- The final grid: per slot, its start instant and
`taken.has(t.format('YYYY-MM-DD HH:mm'))` (the display label rendering is
omitted as presentation-only). -/
def gridOf (slots : List Nat) (taken : List (Nat × Nat)) : List (Nat × Bool) :=
  slots.map (fun t => (t, decide (slotKey t ∈ taken)))

/-! ## Helper lemmas -/

/-- Closed form of the slot loop: one slot per full 30-minute step that fits
before `close`. -/
theorem slotLoop_eq (t close : Nat) :
    slotLoop t close = (List.range ((close - t) / 30)).map (fun i => t + 30 * i) := by
  rw [slotLoop]
  split
  · rename_i h
    rw [slotLoop_eq (t + 30) close]
    have hdiv : (close - t) / 30 = (close - (t + 30)) / 30 + 1 := by omega
    rw [hdiv, List.range_succ_eq_map, List.map_cons, List.map_map]
    refine congrArg₂ List.cons (by omega) ?_
    apply List.map_congr_left
    intro i _
    simp [Function.comp, Nat.mul_succ]
    omega
  · rename_i h
    have hdiv : (close - t) / 30 = 0 := by omega
    rw [hdiv]
    simp
termination_by close - t
decreasing_by omega

/-- Closed form of the booking-key loop: one instant per started 30-minute
step of `[u, e)`. -/
theorem keysLoop_eq (u e : Nat) :
    keysLoop u e = (List.range ((e - u + 29) / 30)).map (fun i => u + 30 * i) := by
  rw [keysLoop]
  split
  · rename_i h
    rw [keysLoop_eq (u + 30) e]
    have hdiv : (e - u + 29) / 30 = (e - (u + 30) + 29) / 30 + 1 := by omega
    rw [hdiv, List.range_succ_eq_map, List.map_cons, List.map_map]
    refine congrArg₂ List.cons (by omega) ?_
    apply List.map_congr_left
    intro i _
    simp [Function.comp, Nat.mul_succ]
    omega
  · rename_i h
    have hdiv : (e - u + 29) / 30 = 0 := by omega
    rw [hdiv]
    simp
termination_by e - u
decreasing_by omega

/-- Membership in the booking-key loop: exactly the instants of `[u, e)`
reached by whole 30-minute steps from `u`. -/
theorem keysLoop_mem (u e x : Nat) :
    x ∈ keysLoop u e ↔ u ≤ x ∧ x < e ∧ (x - u) % 30 = 0 := by
  rw [keysLoop_eq]
  simp only [List.mem_map, List.mem_range]
  constructor
  · rintro ⟨i, hi, rfl⟩
    omega
  · rintro ⟨h1, h2, h3⟩
    exact ⟨(x - u) / 30, by omega, by omega⟩

/-- Membership bounds for the slot loop. -/
theorem slotLoop_mem (t close x : Nat) (hx : x ∈ slotLoop t close) :
    t ≤ x ∧ x + 30 ≤ close ∧ (x - t) % 30 = 0 := by
  rw [slotLoop_eq] at hx
  simp only [List.mem_map, List.mem_range] at hx
  obtain ⟨i, hi, rfl⟩ := hx
  omega

/-- The slot loop is contiguous: each emitted start is 30 minutes after the
previous one. -/
theorem slotLoop_chain (t close : Nat) :
    List.Chain' (fun a b => a + 30 = b) (slotLoop t close) := by
  rw [slotLoop_eq]
  generalize (close - t) / 30 = n
  induction n generalizing t with
  | zero => simp
  | succ n ih =>
    rw [List.range_succ_eq_map, List.map_cons, List.map_map]
    have hmap : (List.range n).map ((fun i => t + 30 * i) ∘ Nat.succ)
        = (List.range n).map (fun i => (t + 30) + 30 * i) := by
      apply List.map_congr_left
      intro i _
      simp [Function.comp, Nat.mul_succ]
      omega
    rw [hmap]
    refine List.chain'_cons'.mpr ⟨?_, ih (t + 30)⟩
    intro b hb
    rcases n with _ | m
    · simp at hb
    · rw [List.range_succ_eq_map, List.map_cons] at hb
      simp at hb
      omega

/-- The occupancy-key rendering is injective: equal `(date, minute-of-day)`
pairs force equal instants. -/
theorem slotKey_inj (u v : Nat) (h : slotKey u = slotKey v) : u = v := by
  simp only [slotKey, Prod.mk.injEq] at h
  omega

/-! ## Claim theorems -/

/-- Claim C1: for every open/close pair whose parsed close instant is
strictly after the parsed open instant, the slot sequence returned by
`buildSlots` is strictly ascending by start, contiguous (each slot's end,
i.e. start + 30, equals the next slot's start), every slot lasts exactly 30
minutes, and every slot's end — in particular the last one's — is at most
the close instant. -/
theorem buildSlots_grid_props (d : Nat) (os cs : String) (o c : Nat)
    (ho : parseTime d os = some o) (hc : parseTime d cs = some c) (hoc : o < c) :
    ∃ slots, buildSlots d os cs = Except.ok slots ∧
      List.Chain' (fun a b => a + 30 = b) slots ∧
      List.Chain' (fun a b => a < b) slots ∧
      (∀ t ∈ slots, t + 30 ≤ c) := by
  refine ⟨slotLoop (alignSlot o) c, ?_, slotLoop_chain _ _,
    (slotLoop_chain _ _).imp (fun a b h => by omega), ?_⟩
  · simp [buildSlots, ho, hc, hoc]
  · intro t ht
    exact (slotLoop_mem _ _ _ ht).2.1

/-- Witness for C1 at a concrete window (09:00–17:00 on day 0). -/
theorem buildSlots_grid_props_witness :
    ∃ slots, buildSlots 0 "09:00" "17:00" = Except.ok slots ∧
      List.Chain' (fun a b => a + 30 = b) slots ∧
      List.Chain' (fun a b => a < b) slots ∧
      (∀ t ∈ slots, t + 30 ≤ 1020) :=
  buildSlots_grid_props 0 "09:00" "17:00" 540 1020 (by decide) (by decide) (by decide)

/-- Claim C2: when the parsed close instant is not strictly after the parsed
open instant, `buildSlots` advances close by one calendar day (1440 minutes)
before emitting slots; in particular open="08:00", close="01:00" yields a
non-empty grid whose every slot ends by — and whose last slot ends exactly
at — 01:00 on the next calendar day. -/
theorem buildSlots_midnight_rollover (d : Nat) (os cs : String) (o c : Nat)
    (ho : parseTime d os = some o) (hc : parseTime d cs = some c) (hco : c ≤ o) :
    buildSlots d os cs = Except.ok (slotLoop (alignSlot o) (c + 1440)) ∧
    buildSlots d "08:00" "01:00"
      = Except.ok ((List.range 34).map (fun i => d * 1440 + 480 + 30 * i)) ∧
    ((List.range 34).map (fun i => d * 1440 + 480 + 30 * i)) ≠ [] ∧
    (∀ t ∈ (List.range 34).map (fun i => d * 1440 + 480 + 30 * i),
      t + 30 ≤ d * 1440 + 1440 + 60) ∧
    (∃ t ∈ (List.range 34).map (fun i => d * 1440 + 480 + 30 * i),
      t + 30 = d * 1440 + 1440 + 60) := by
  refine ⟨?_, ?_, by simp, ?_, ?_⟩
  · simp only [buildSlots, ho, hc]
    rw [if_neg (by omega)]
  · have hop : parseTime d "08:00" = some (d * 1440 + 480) := by
      simp [parseTime, show parseMinutes "08:00" = some 480 from rfl]
    have hcl : parseTime d "01:00" = some (d * 1440 + 60) := by
      simp [parseTime, show parseMinutes "01:00" = some 60 from rfl]
    simp only [buildSlots, hop, hcl]
    rw [if_neg (by omega)]
    have halign : alignSlot (d * 1440 + 480) = d * 1440 + 480 := by
      unfold alignSlot
      rw [if_pos (show (d * 1440 + 480) % 60 < 30 by omega)]
      omega
    rw [halign, slotLoop_eq]
    have hcount : (d * 1440 + 60 + 1440 - (d * 1440 + 480)) / 30 = 34 := by omega
    rw [hcount]
  · intro t ht
    simp only [List.mem_map, List.mem_range] at ht
    obtain ⟨i, hi, rfl⟩ := ht
    omega
  · refine ⟨d * 1440 + 480 + 30 * 33, ?_, by omega⟩
    simp only [List.mem_map, List.mem_range]
    exact ⟨33, by omega, rfl⟩

/-- Witness for C2 at the concrete day 0 and the window 20:00–08:00. -/
theorem buildSlots_midnight_rollover_witness :
    buildSlots 0 "20:00" "08:00" = Except.ok (slotLoop (alignSlot 1200) (480 + 1440)) :=
  (buildSlots_midnight_rollover 0 "20:00" "08:00" 1200 480
    (by decide) (by decide) (by decide)).1

/-- Claim C7: when the hours entry for the requested date has a status
matching `/open/i` and no sub-interval array (or an empty one),
`getTodayHours` returns the window 12:00am–12:00am, which `buildSlots`
interprets as midnight to the next midnight, producing a full 24-hour grid
of 48 thirty-minute slots. -/
theorem alwaysOpen_full_day_grid (d : Nat) (st : String) (hf : HoursField)
    (fo fc : Nat) (hopen : regexTestOpen st = true)
    (hempty : hoursEmptyish hf = true) :
    getTodayHours (HoursResponse.resp 200 (HoursBody.json (some ⟨st, hf⟩))) fo fc
      = ("12:00am", "12:00am") ∧
    buildSlots d "12:00am" "12:00am"
      = Except.ok ((List.range 48).map (fun i => d * 1440 + 30 * i)) ∧
    ((List.range 48).map (fun i => d * 1440 + 30 * i)).length = 48 ∧
    (∀ t ∈ (List.range 48).map (fun i => d * 1440 + 30 * i),
      t + 30 ≤ (d + 1) * 1440) ∧
    (∃ t ∈ (List.range 48).map (fun i => d * 1440 + 30 * i),
      t + 30 = (d + 1) * 1440) := by
  refine ⟨?_, ?_, by simp, ?_, ?_⟩
  · simp [getTodayHours, getTodayHoursE, hopen, hempty]
  · have hmid : parseTime d "12:00am" = some (d * 1440 + 0) := by
      simp [parseTime, show parseMinutes "12:00am" = some 0 from rfl]
    simp only [buildSlots, hmid]
    rw [if_neg (by omega)]
    have halign : alignSlot (d * 1440 + 0) = d * 1440 := by
      unfold alignSlot
      rw [if_pos (show (d * 1440 + 0) % 60 < 30 by omega)]
      omega
    rw [halign, slotLoop_eq]
    have hcount : (d * 1440 + 0 + 1440 - (d * 1440)) / 30 = 48 := by omega
    rw [hcount]
  · intro t ht
    simp only [List.mem_map, List.mem_range] at ht
    obtain ⟨i, hi, rfl⟩ := ht
    omega
  · refine ⟨d * 1440 + 30 * 47, ?_, by omega⟩
    simp only [List.mem_map, List.mem_range]
    exact ⟨47, by omega, rfl⟩

/-- Witness for C7 at day 0, status "open", an absent hours array, and the
default fallback configuration. -/
theorem alwaysOpen_full_day_grid_witness :
    getTodayHours (HoursResponse.resp 200
        (HoursBody.json (some ⟨"open", HoursField.absent⟩))) 8 23
      = ("12:00am", "12:00am") ∧
    buildSlots 0 "12:00am" "12:00am"
      = Except.ok ((List.range 48).map (fun i => 0 * 1440 + 30 * i)) :=
  ⟨(alwaysOpen_full_day_grid 0 "open" HoursField.absent 8 23
      (by decide) (by decide)).1,
   (alwaysOpen_full_day_grid 0 "open" HoursField.absent 8 23
      (by decide) (by decide)).2.1⟩

/-- Claim C4 (amended): for a network error, a non-success HTTP status,
unparseable JSON, a missing date entry, or a status not matching `/open/i`,
`getTodayHours` catches the failure and returns the statically configured
fallback window, rendered as zero-padded "HH:00" strings; it never throws to
its caller (it is total by construction).  The original claim also listed
"malformed sub-intervals" among the fallback-producing failures, but an
`open` status with malformed sub-intervals does not take the fallback path
(see the counterexample). -/
theorem getTodayHours_fallback_on_failure (r : HoursResponse) (fo fc : Nat)
    (hfail : isHoursFailure r = true) :
    getTodayHours r fo fc = (pad2 fo ++ ":00", pad2 fc ++ ":00") := by
  cases r with
  | netErr e => rfl
  | resp status body =>
    by_cases hok : 200 ≤ status ∧ status < 300
    · cases body with
      | notJson e => simp [getTodayHours, getTodayHoursE, hok]
      | json dd =>
        cases dd with
        | none => simp [getTodayHours, getTodayHoursE, hok]
        | some dayData =>
          have hro : regexTestOpen dayData.status = false := by
            simp only [isHoursFailure] at hfail
            rw [if_pos hok] at hfail
            simpa using hfail
          cases h : dayData.hours with
          | absent => simp [getTodayHours, getTodayHoursE, hok, hro, h]
          | notArray => simp [getTodayHours, getTodayHoursE, hok, hro, h]
          | arr l =>
            cases l with
            | nil => simp [getTodayHours, getTodayHoursE, hok, hro, h]
            | cons h0 rest => simp [getTodayHours, getTodayHoursE, hok, hro, h]
    · simp [getTodayHours, getTodayHoursE, hok]

/-- Witness for C4 at a simulated transport error and the default fallback
configuration (open 8, close 23). -/
theorem getTodayHours_fallback_on_failure_witness :
    getTodayHours (HoursResponse.netErr "ECONNREFUSED") 8 23 = ("08:00", "23:00") := by
  rw [getTodayHours_fallback_on_failure (HoursResponse.netErr "ECONNREFUSED") 8 23
    (by decide)]
  decide

/-- Counterexample to C4 as stated: an `open` status with malformed
sub-intervals (here times no pattern parses) is passed through unchanged, not
replaced by the fallback window — `getTodayHours` returns the garbage
boundary strings. -/
theorem getTodayHours_open_malformed_cex :
    getTodayHours (HoursResponse.resp 200 (HoursBody.json
        (some ⟨"open", HoursField.arr [("zz", "yy")]⟩))) 8 23 = ("zz", "yy") ∧
    ("zz", "yy") ≠ ("08:00", "23:00") := by
  exact ⟨rfl, by decide⟩

/-- Claim C6: the assembler keeps exactly those slots whose end instant
(start + 30) is strictly after the current instant — a slot survives iff it
is in the day grid and either its end is still in the future or the filter
left nothing at all — and if the filter leaves zero slots (every slot's end
has passed), the response contains the full unfiltered day grid. -/
theorem displaySlots_end_filter (allSlots : List Nat) (now : Nat) :
    (∀ t, t ∈ displaySlots allSlots now ↔
      (t ∈ allSlots ∧ (now < t + 30 ∨ ∀ u ∈ allSlots, u + 30 ≤ now))) ∧
    ((∀ u ∈ allSlots, u + 30 ≤ now) → displaySlots allSlots now = allSlots) := by
  have hpast : ∀ u ∈ allSlots, u + 30 ≤ now → ¬ (decide (now < u + 30) = true) := by
    intro u _ hu
    simpa using by omega
  constructor
  · intro t
    by_cases hE : (allSlots.filter (fun t => decide (now < t + 30))).length = 0
    · have hnil : allSlots.filter (fun t => decide (now < t + 30)) = [] :=
        List.length_eq_zero.mp hE
      have hall : ∀ u ∈ allSlots, u + 30 ≤ now := by
        intro u hu
        have := List.filter_eq_nil_iff.mp hnil u hu
        simp at this
        omega
      simp only [displaySlots, hE, if_pos]
      constructor
      · intro ht
        exact ⟨ht, Or.inr hall⟩
      · intro ht
        exact ht.1
    · simp only [displaySlots, if_neg hE]
      rw [List.mem_filter]
      constructor
      · rintro ⟨ht, hlt⟩
        refine ⟨ht, Or.inl ?_⟩
        simpa using hlt
      · rintro ⟨ht, hlt | hall⟩
        · simpa [ht] using by omega
        · exfalso
          apply hE
        
          rw [List.length_eq_zero, List.filter_eq_nil_iff]
          intro u hu
          have := hall u hu
          simp
          omega
  · intro hall
    have hnil : allSlots.filter (fun t => decide (now < t + 30)) = [] := by
      rw [List.filter_eq_nil_iff]
      intro u hu
      have := hall u hu
      simp
      omega
    simp [displaySlots, hnil]

/-- Witness for C6: a request after closing (both slot ends past `now`)
returns the full grid. -/
theorem displaySlots_end_filter_witness :
    displaySlots [600, 630] 10000 = [600, 630] :=
  (displaySlots_end_filter [600, 630] 10000).2 (by decide)

/-- Claim C5: only bookings whose status normalizes case- and
whitespace-insensitively to a member of the active set contribute occupancy
keys — a "canceled" (or "rejected") booking contributes zero keys, while a
"confirmed" booking spanning exactly two slot widths contributes exactly the
two distinct date+time keys of its two half-hours. -/
theorem bookingKeys_status_filter (s e : Nat) :
    bookingKeys ⟨some "canceled", some s, some e⟩ = [] ∧
    bookingKeys ⟨some "rejected", some s, some e⟩ = [] ∧
    isActiveStatus (some "  CONFIRMED ") = true ∧
    isActiveStatus (some "canceled") = false ∧
    bookingKeys ⟨some "confirmed", some s, some (s + 60)⟩
      = [slotKey s, slotKey (s + 30)] ∧
    slotKey s ≠ slotKey (s + 30) := by
  have hkl : keysLoop s (s + 60) = [s, s + 30] := by
    rw [keysLoop_eq]
    have hcount : (s + 60 - s + 29) / 30 = 2 := by omega
    rw [hcount, show List.range 2 = [0, 1] from by decide]
    simp
  refine ⟨?_, ?_, by decide, by decide, ?_, ?_⟩
  · simp [bookingKeys, show isActiveStatus (some "canceled") = false from by decide]
  · simp [bookingKeys, show isActiveStatus (some "rejected") = false from by decide]
  · simp [bookingKeys, show isActiveStatus (some "confirmed") = true from by decide, hkl]
  · intro h
    have := slotKey_inj s (s + 30) h
    omega

/-- Claim C9: for an active booking with valid parsed instants, a date+time
occupancy key is generated for an instant `t` exactly when `t` lies in the
booking's `[start, end)` range and is a whole number of 30-minute steps from
the raw start; since the key carries the calendar date, an instant at the
same clock time on a different day (outside the range) is never marked. -/
theorem bookingKeys_date_scoped (b : Booking) (s e : Nat)
    (hact : isActiveStatus b.status = true) (hs : b.start = some s)
    (he : b.finish = some e) (t : Nat) :
    slotKey t ∈ bookingKeys b ↔ (s ≤ t ∧ t < e ∧ (t - s) % 30 = 0) := by
  simp only [bookingKeys, hact, if_true, hs, he]
  constructor
  · intro h
    simp only [List.mem_map] at h
    obtain ⟨u, hu, huv⟩ := h
    have heq := slotKey_inj u t huv
    subst heq
    exact (keysLoop_mem s e u).mp hu
  · intro h
    exact List.mem_map_of_mem slotKey ((keysLoop_mem s e t).mpr h)

/-- Witness for C9: a confirmed booking 23:30–00:30 across midnight does not
mark 23:30 of the following day (same clock time, next calendar date). -/
theorem bookingKeys_date_scoped_witness :
    (slotKey 2850 ∈ bookingKeys ⟨some "confirmed", some 1410, some 1470⟩
      ↔ (1410 ≤ 2850 ∧ 2850 < 1470 ∧ (2850 - 1410) % 30 = 0)) :=
  bookingKeys_date_scoped ⟨some "confirmed", some 1410, some 1470⟩ 1410 1470
    (by decide) rfl rfl 2850

/-- Claim C10: every grid slot start lies on a :00 or :30 boundary (the open
instant is rounded down before emission), while occupancy keys step from the
booking's raw un-rounded start; hence a booking whose start minute is not a
multiple of 30 produces keys matching no grid slot key, and marks zero slots
as booked in the response grid. -/
theorem unaligned_booking_marks_nothing (d : Nat) (os cs : String) (o c : Nat)
    (slots : List Nat) (ho : parseTime d os = some o) (hc : parseTime d cs = some c)
    (hb : buildSlots d os cs = Except.ok slots)
    (b : Booking) (s e : Nat) (hs : b.start = some s) (he : b.finish = some e)
    (hmis : s % 30 ≠ 0) (now : Nat) :
    (∀ t ∈ slots, t % 30 = 0) ∧
    (∀ t ∈ slots, slotKey t ∉ bookingKeys b) ∧
    (∀ entry ∈ gridOf (displaySlots slots now) (bookingKeys b), entry.2 = false) := by
  simp only [buildSlots, ho, hc] at hb
  injection hb with hb
  have haligned : ∀ t ∈ slots, t % 30 = 0 := by
    intro t ht
    rw [← hb] at ht
    have hmem := slotLoop_mem _ _ _ ht
    have h30 : alignSlot o % 30 = 0 := by
      unfold alignSlot
      by_cases hlt : o % 60 < 30
      · rw [if_pos hlt]; omega
      · rw [if_neg hlt]; omega
    omega
  have hnomark : ∀ t ∈ slots, slotKey t ∉ bookingKeys b := by
    intro t ht hmem
    by_cases hact : isActiveStatus b.status = true
    · simp only [bookingKeys, hact, if_true, hs, he, List.mem_map] at hmem
      obtain ⟨u, hu, huv⟩ := hmem
      have heq := slotKey_inj u t huv
      subst heq
      have hub := (keysLoop_mem s e u).mp hu
      have := haligned u ht
      omega
    · simp only [bookingKeys, hact] at hmem
      simp at hmem
  refine ⟨haligned, hnomark, ?_⟩
  have hsub : ∀ t, t ∈ displaySlots slots now → t ∈ slots := by
    intro x hx
    simp only [displaySlots] at hx
    split at hx
    · exact hx
    · exact (List.mem_filter.mp hx).1
  intro entry hentry
  simp only [gridOf, List.mem_map] at hentry
  obtain ⟨t, ht, rfl⟩ := hentry
  simpa using hnomark t (hsub t ht)

/-- Witness for C10: a confirmed booking starting at 09:05 (minute 545) in a
09:00–10:00 grid marks nothing. -/
theorem unaligned_booking_marks_nothing_witness :
    (∀ t ∈ slotLoop (alignSlot 540) 600, t % 30 = 0) ∧
    (∀ t ∈ slotLoop (alignSlot 540) 600,
      slotKey t ∉ bookingKeys ⟨some "confirmed", some 545, some 605⟩) ∧
    (∀ entry ∈ gridOf (displaySlots (slotLoop (alignSlot 540) 600) 0)
        (bookingKeys ⟨some "confirmed", some 545, some 605⟩), entry.2 = false) :=
  unaligned_booking_marks_nothing 0 "09:00" "10:00" 540 600
    (slotLoop (alignSlot 540) 600) (by decide) (by decide) rfl
    ⟨some "confirmed", some 545, some 605⟩ 545 605 rfl rfl (by decide) 0

/-- Claim C3: with a truthy cached token and the current time before its
recorded expiry, `getAccessToken` returns the cached token unchanged with
zero network requests; on a cache miss it refreshes, storing the new token
with expiry `now + (lifetime - 60 s) · 1000` (provider lifetime minus the
safety margin, in ms); a second call within the validity window returns the
identical token with zero requests; and a call at or after expiry performs
exactly one refresh request. -/
theorem tokenCache_hit_and_single_refresh (cache : TokenCache)
    (now later : Int) (tok : String) (life : Int)
    (hmiss : ¬ (tokenTruthy cache = true ∧ now < cache.expires))
    (hlife : life ≠ 0) (htok : tok ≠ "")
    (hlater : later < now + (life - 60) * 1000) :
    (∀ c2 : TokenCache, tokenTruthy c2 = true → now < c2.expires →
      getAccessToken c2 now [OAuthResponse.resp 200 (OAuthBody.json (some tok) (some life))]
        = (Except.ok c2.token, c2, 0)) ∧
    getAccessToken cache now [OAuthResponse.resp 200 (OAuthBody.json (some tok) (some life))]
      = (Except.ok (some tok), ⟨some tok, now + (life - 60) * 1000⟩, 1) ∧
    getAccessToken ⟨some tok, now + (life - 60) * 1000⟩ later
        [OAuthResponse.resp 200 (OAuthBody.json (some tok) (some life))]
      = (Except.ok (some tok), ⟨some tok, now + (life - 60) * 1000⟩, 0) ∧
    (∀ t3 : Int, now + (life - 60) * 1000 ≤ t3 →
      getAccessToken ⟨some tok, now + (life - 60) * 1000⟩ t3
          [OAuthResponse.resp 200 (OAuthBody.json (some tok) (some life))]
        = (Except.ok (some tok), ⟨some tok, t3 + (life - 60) * 1000⟩, 1)) := by
  have hstep : ∀ t0 : Int,
      refreshLoop t0 [OAuthResponse.resp 200 (OAuthBody.json (some tok) (some life))] none
        = (Except.ok ⟨some tok, t0 + (life - 60) * 1000⟩, 1) := by
    intro t0
    simp [refreshLoop, expiresOf, hlife]
  refine ⟨?_, ?_, ?_, ?_⟩
  · intro c2 h1 h2
    simp [getAccessToken, h1, h2]
  · simp [getAccessToken, hmiss, hstep now]
  · have htr : tokenTruthy ⟨some tok, now + (life - 60) * 1000⟩ = true := by
      simp [tokenTruthy, htok]
    simp [getAccessToken, htr, hlater]
  · intro t3 h3
    have hnot : ¬ (tokenTruthy ⟨some tok, now + (life - 60) * 1000⟩ = true
        ∧ t3 < (⟨some tok, now + (life - 60) * 1000⟩ : TokenCache).expires) := by
      rintro ⟨-, hlt⟩
      simp at hlt
      omega
    simp [getAccessToken, hnot, hstep t3]

/-- Witness for C3: starting from an empty cache at time 1000 with a
3600-second lifetime, the refresh stores expiry 1000 + 3540·1000 and returns
the fresh token with exactly one request. -/
theorem tokenCache_hit_and_single_refresh_witness :
    getAccessToken ⟨none, 0⟩ 1000
        [OAuthResponse.resp 200 (OAuthBody.json (some "T") (some 3600))]
      = (Except.ok (some "T"), ⟨some "T", 1000 + (3600 - 60) * 1000⟩, 1) :=
  (tokenCache_hit_and_single_refresh ⟨none, 0⟩ 1000 2000 "T" 3600
    (by decide) (by decide) (by decide) (by decide)).2.1

/-- When every loop iteration fails, the endpoint loop returns the thrown
`lastErr` accumulator (seeded by each iteration's failure message) and
performs one fetch per candidate endpoint. -/
theorem refreshLoop_fail (now : Int) (resps : List OAuthResponse)
    (hfail : ∀ r ∈ resps, (oauthFailMsg r).isSome = true) :
    ∀ acc : Option String, refreshLoop now resps acc
      = (Except.error ((resps.foldl
          (fun a r => (oauthFailMsg r).orElse (fun _ => a)) acc).getD "OAuth failed"),
         resps.length) := by
  induction resps with
  | nil => intro acc; simp [refreshLoop]
  | cons r rest ih =>
    intro acc
    have hrest : ∀ x ∈ rest, (oauthFailMsg x).isSome = true :=
      fun x hx => hfail x (List.mem_cons_of_mem r hx)
    have hr : (oauthFailMsg r).isSome = true := hfail r (List.mem_cons_self r rest)
    cases r with
    | netErr e =>
      simp only [refreshLoop]
      rw [ih hrest]
      simp [oauthFailMsg]
    | resp st body =>
      by_cases hok : 200 ≤ st ∧ st < 300
      · cases body with
        | notJson e =>
          simp only [refreshLoop, if_pos hok]
          rw [ih hrest]
          simp [oauthFailMsg, hok]
        | json tok exp =>
          exfalso
          simp [oauthFailMsg, hok] at hr
      · simp only [refreshLoop, if_neg hok]
        rw [ih hrest]
        simp [oauthFailMsg, hok]

/-- On an all-failure run the `lastErr` accumulator holds exactly the
failure message of the last candidate endpoint's response. -/
theorem lastErr_eq_getLast (resps : List OAuthResponse)
    (hfail : ∀ r ∈ resps, (oauthFailMsg r).isSome = true) (hne : resps ≠ []) :
    ∀ acc : Option String,
      resps.foldl (fun a r => (oauthFailMsg r).orElse (fun _ => a)) acc
        = resps.getLast?.bind oauthFailMsg := by
  induction resps with
  | nil => intro acc; simp at hne
  | cons r rest ih =>
    intro acc
    cases rest with
    | nil =>
      obtain ⟨e, he⟩ := Option.isSome_iff_exists.mp (hfail r (List.mem_cons_self r []))
      simp [he]
    | cons r2 rest2 =>
      rw [List.foldl_cons, ih (fun x hx => hfail x (by simp [hx])) (by simp),
        List.getLast?_cons_cons]

/-- Claim C8 (amended): when every candidate token endpoint fails with a
network error, a non-success HTTP status, or a non-JSON response body,
`getAccessToken` raises the last-seen error to its caller, leaves the cache
untouched (so no token — stale, expired or default — is ever returned), and
performs one fetch per candidate.  The original claim also counted a
"token-less" (parseable but `access_token`-free) body as such a failure, but
the source treats it as a success (see the counterexample). -/
theorem getAccessToken_all_endpoints_fail (cache : TokenCache) (now : Int)
    (resps : List OAuthResponse)
    (hmiss : ¬ (tokenTruthy cache = true ∧ now < cache.expires))
    (hne : resps ≠ [])
    (hfail : ∀ r ∈ resps, (oauthFailMsg r).isSome = true) :
    ∃ e, getAccessToken cache now resps = (Except.error e, cache, resps.length) ∧
      resps.getLast?.bind oauthFailMsg = some e := by
  have h1 := refreshLoop_fail now resps hfail none
  rw [lastErr_eq_getLast resps hfail hne none] at h1
  obtain ⟨r, hrlast⟩ := Option.isSome_iff_exists.mp (List.getLast?_isSome.mpr hne)
  have hrmem : r ∈ resps := by
    rw [List.getLast?_eq_getLast resps hne] at hrlast
    have hr' := Option.some.inj hrlast
    rw [← hr']
    exact List.getLast_mem hne
  obtain ⟨e, he⟩ := Option.isSome_iff_exists.mp (hfail r hrmem)
  refine ⟨e, ?_, ?_⟩
  · simp [getAccessToken, hmiss, h1, hrlast, he]
  · rw [hrlast]
    simpa using he

/-- Witness for C8: from an empty cache, a rejected first endpoint and a 500
from the second raise the 500's error after exactly two fetches. -/
theorem getAccessToken_all_endpoints_fail_witness :
    ∃ e, getAccessToken ⟨none, 0⟩ 0
        [OAuthResponse.netErr "ECONNREFUSED",
         OAuthResponse.resp 500 (OAuthBody.notJson "Bad Gateway")]
      = (Except.error e, ⟨none, 0⟩, 2) ∧
      ([OAuthResponse.netErr "ECONNREFUSED",
        OAuthResponse.resp 500 (OAuthBody.notJson "Bad Gateway")].getLast?.bind
          oauthFailMsg) = some e :=
  getAccessToken_all_endpoints_fail ⟨none, 0⟩ 0
    [OAuthResponse.netErr "ECONNREFUSED",
     OAuthResponse.resp 500 (OAuthBody.notJson "Bad Gateway")]
    (by decide) (by decide) (by decide)

/-- Counterexample to C8 as stated: a success-status response whose body is
valid JSON but carries no `access_token` does not raise — `getAccessToken`
caches `{token: undefined}` and returns that absent token as a success. -/
theorem getAccessToken_tokenless_cex :
    getAccessToken ⟨none, 0⟩ 0 [OAuthResponse.resp 200 (OAuthBody.json none none)]
      = (Except.ok none, ⟨none, 0 + 59 * 60 * 1000⟩, 1) := by
  simp [getAccessToken, refreshLoop, expiresOf, tokenTruthy]

/-- Witness for C5 at the concrete start minute 600 (10:00). -/
theorem bookingKeys_status_filter_witness :
    bookingKeys ⟨some "canceled", some 600, some 660⟩ = [] :=
  (bookingKeys_status_filter 600 660).1
